import Mathlib

/-!
Shallow embedding of `src/upload.rs` (gfx-render upload module).

Modelling conventions:
* `u64`/`usize` quantities (offsets, sizes, frame numbers) are modelled as `Nat`;
  the code assumes no overflow (sizes are bounded by device memory).
* Device memory is a store `Nat → Nat → Nat` (memory handle → address → byte).
* The device's observable mapping operations (`map_memory`,
  `invalidate_mapped_memory_ranges`, `flush_mapped_memory_ranges`, the raw
  slice write) are recorded as an ordered event log on the `Device`.
* Opaque `hal` values the code never inspects (`ImageLayout`,
  `SubresourceLayers`, `Offset`, `Extent`, raw buffer/image handles) are
  modelled as `Nat` handles.
* The allocator (`SmartAllocator`) is modelled by its two operations the code
  uses: `properties` (a map from memory handle to the property set) and
  `create_buffer` (which may fail, modelling out-of-memory, via `canAlloc`).
-/

/-- A half-open byte range `start..stop` (Rust `Range<u64>`). -/
structure MemoryRange where
  start : Nat
  stop : Nat
deriving DecidableEq, Repr

/-- `SmartBlock`: a range within a device memory allocation, identified by a
memory handle. -/
structure SmartBlock where
  memory : Nat
  range : MemoryRange
deriving DecidableEq, Repr

/-- `Item<B::Buffer, SmartBlock>`: a raw buffer handle together with its
block. -/
structure SmartBuffer where
  raw : Nat
  block : SmartBlock
deriving DecidableEq, Repr

/-- `buffer.size()`: the byte size of the buffer, the length of its block's
range. -/
def SmartBuffer.size (b : SmartBuffer) : Nat :=
  b.block.range.stop - b.block.range.start

/-- `Item<B::Image, SmartBlock>`: a raw image handle together with its block. -/
structure SmartImage where
  raw : Nat
  block : SmartBlock
deriving DecidableEq, Repr

/-- The memory property flags the code reads (`Properties::CPU_VISIBLE`,
`Properties::COHERENT`). -/
structure Properties where
  cpu_visible : Bool
  coherent : Bool
deriving DecidableEq, Repr

/-- `hal::command::BufferCopy`. -/
structure BufferCopy where
  src : Nat
  dst : Nat
  size : Nat
deriving DecidableEq, Repr

/-- `hal::command::BufferImageCopy`; layers/offset/extent are opaque handles. -/
structure BufferImageCopy where
  buffer_offset : Nat
  buffer_width : Nat
  buffer_height : Nat
  image_layers : Nat
  image_offset : Nat
  image_extent : Nat
deriving DecidableEq, Repr

/-- A command recorded into a command buffer
(`update_buffer` / `copy_buffer` / `copy_buffer_to_image`). -/
inductive Command where
  | updateBuffer (dst : Nat) (offset : Nat) (data : List Nat)
  | copyBuffer (src : Nat) (dst : Nat) (regions : List BufferCopy)
  | copyBufferToImage (src : Nat) (dst : Nat) (layout : Nat)
      (regions : List BufferImageCopy)
deriving DecidableEq, Repr

/-- Recording state of a command buffer
(fresh or reset / `begin` called / `finish` called). -/
inductive CbufState where
  | initial
  | recording
  | executable
deriving DecidableEq, Repr

/-- `B::CommandBuffer`: its recording state and the recorded command list. -/
structure CommandBuffer where
  state : CbufState
  commands : List Command
deriving DecidableEq, Repr

/-- A freshly allocated command buffer (from `pool.allocate`). -/
def newCommandBuffer : CommandBuffer :=
  { state := .initial, commands := [] }

/-- `cbuf.begin(CommandBufferFlags::empty())`. -/
def CommandBuffer.begin (cb : CommandBuffer) : CommandBuffer :=
  { cb with state := .recording }

/-- `cbuf.finish()`. -/
def CommandBuffer.finish (cb : CommandBuffer) : CommandBuffer :=
  { cb with state := .executable }

/-- `cbuf.reset(true)`: recording state reset, recorded commands discarded. -/
def CommandBuffer.reset (_cb : CommandBuffer) : CommandBuffer :=
  { state := .initial, commands := [] }

/-- Record one command into a command buffer (commands execute in recording
order, so the list is kept in that order). -/
def CommandBuffer.record (cb : CommandBuffer) (c : Command) : CommandBuffer :=
  { cb with commands := cb.commands ++ [c] }

/-- Observable device operations performed on mapped memory. -/
inductive DeviceEvent where
  | mapMemory (memory : Nat) (range : MemoryRange)
  | invalidate (memory : Nat) (range : MemoryRange)
  | write (memory : Nat) (start : Nat) (data : List Nat)
  | flush (memory : Nat) (range : MemoryRange)
deriving DecidableEq, Repr

/-- The byte contents of all device memory allocations:
memory handle → address → byte. -/
def MemStore : Type := Nat → Nat → Nat

/-- Overwrite `[start, start + data.length)` of a single memory's contents with
`data` (the raw `slice.copy_from_slice(data)`). -/
def writeBytes (m : Nat → Nat) (start : Nat) (data : List Nat) : Nat → Nat :=
  fun a => if start ≤ a ∧ a < start + data.length then data.getD (a - start) 0 else m a

/-- Overwrite a range of one memory in the whole store. -/
def writeMem (m : MemStore) (memory start : Nat) (data : List Nat) : MemStore :=
  fun i => if i = memory then writeBytes (m i) start data else m i

/-- Read `len` bytes of memory `memory` starting at `start`. -/
def readBytes (m : MemStore) (memory start len : Nat) : List Nat :=
  (List.range len).map (fun i => m memory (start + i))

/-- `&B::Device` with the mutable state behind it: the memory contents and the
ordered log of mapping-related operations. -/
structure Device where
  mem : MemStore
  log : List DeviceEvent

/-- `update_cpu_visible_block::<B>(device, coherent, block, offset, data)`:
maps `[block.start + offset, block.start + offset + len)`, invalidates it when
not coherent, copies `data` into it, and flushes it when not coherent. -/
def update_cpu_visible_block (dev : Device) (coherent : Bool) (block : SmartBlock)
    (offset : Nat) (data : List Nat) : Device :=
  let start := block.range.start + offset
  let stop := start + data.length
  let range : MemoryRange := ⟨start, stop⟩
  let events : List DeviceEvent :=
    [.mapMemory block.memory range]
      ++ (if coherent then [] else [.invalidate block.memory range])
      ++ [.write block.memory start data]
      ++ (if coherent then [] else [.flush block.memory range])
  { mem := writeMem dev.mem block.memory start data
    log := dev.log ++ events }

/-- The allocator (`SmartAllocator`): property set of every memory handle, a
fresh-handle counter, and which allocation sizes currently succeed. -/
structure Allocator where
  props : Nat → Properties
  nextId : Nat
  canAlloc : Nat → Bool

/-- `allocator.properties(block)`. -/
def Allocator.properties (a : Allocator) (block : SmartBlock) : Properties :=
  a.props block.memory

/-- `allocator.create_buffer(device, (Type::ShortLived, Properties::CPU_VISIBLE),
size, BufferUsage::TRANSFER_SRC)`: on success the fresh buffer's block is
CPU-visible (as requested); whether it is additionally coherent is the
backend's choice, modelled by the pre-existing `props` entry of the fresh
handle. -/
def Allocator.create_buffer (a : Allocator) (size : Nat) :
    Except Unit (SmartBuffer × Allocator) :=
  if a.canAlloc size then
    let id := a.nextId
    let buf : SmartBuffer := { raw := id, block := { memory := id, range := ⟨0, size⟩ } }
    .ok (buf,
      { a with
        nextId := id + 1
        props := fun m =>
          if m = id then { cpu_visible := true, coherent := (a.props id).coherent }
          else a.props m })
  else
    .error ()

/-- The error kind surfaced to the caller
(`MappingError::OutOfBounds` or an allocator error). -/
inductive ErrorKind where
  | outOfBounds
  | allocError
deriving DecidableEq, Repr

/-- `Error::with_chain(err, ctx)`: an error kind chained with a context
string. -/
structure UploadError where
  kind : ErrorKind
  context : String
deriving DecidableEq, Repr

/-- The `Upload` context. `free` models the `Vec` (push/pop at the list's
back); `used` models the `VecDeque` (head = front, oldest). -/
structure Upload where
  staging_threshold : Nat
  family : Nat
  pool : Option Unit
  cbuf : Option CommandBuffer
  free : List CommandBuffer
  used : List (CommandBuffer × Nat)

/-- `Vec::pop`: remove and return the last element. -/
def vecPop (l : List CommandBuffer) : Option (CommandBuffer × List CommandBuffer) :=
  match l.getLast? with
  | some c => some (c, l.dropLast)
  | none => none

/-- `Upload::new(staging_threshold, family)`. -/
def Upload.new (staging_threshold : Nat) (family : Nat) : Upload :=
  { staging_threshold := staging_threshold
    family := family
    pool := none
    cbuf := none
    free := []
    used := [] }

/-- `Upload::get_command_buffer`: return the current buffer, or obtain one from
the free list (or, failing that, allocate a fresh one after lazily creating
the pool), begin recording on it and store it as current. -/
def Upload.get_command_buffer (u : Upload) : CommandBuffer × Upload :=
  match u.cbuf with
  | some cb => (cb, u)
  | none =>
    match vecPop u.free with
    | some (cb, rest) =>
      let cb := cb.begin
      (cb, { u with cbuf := some cb, free := rest })
    | none =>
      let cb := newCommandBuffer.begin
      (cb, { u with cbuf := some cb, pool := some () })

/-- `self.get_command_buffer(device).<record command>`: acquire the current
buffer and append one command to it. -/
def Upload.recordCommand (u : Upload) (c : Command) : Upload :=
  let (cb, u1) := u.get_command_buffer
  { u1 with cbuf := some (cb.record c) }

/-- `Upload::upload_device_local_buffer`. -/
def Upload.upload_device_local_buffer (u : Upload) (dev : Device) (alloc : Allocator)
    (buffer : SmartBuffer) (offset : Nat) (data : List Nat) :
    Except UploadError (Option SmartBuffer) × Upload × Device × Allocator :=
  if data.length ≤ u.staging_threshold then
    (.ok none, u.recordCommand (.updateBuffer buffer.raw offset data), dev, alloc)
  else
    match alloc.create_buffer data.length with
    | .error _ =>
      (.error ⟨.allocError, "Failed to create staging buffer"⟩, u, dev, alloc)
    | .ok (staging, alloc1) =>
      let props := alloc1.properties staging.block
      let dev1 := update_cpu_visible_block dev props.coherent staging.block 0 data
      let u1 := u.recordCommand
        (.copyBuffer staging.raw buffer.raw [⟨0, offset, data.length⟩])
      (.ok (some staging), u1, dev1, alloc1)

/-- `Upload::upload_buffer`. -/
def Upload.upload_buffer (u : Upload) (dev : Device) (alloc : Allocator)
    (buffer : SmartBuffer) (offset : Nat) (data : List Nat) :
    Except UploadError (Option SmartBuffer) × Upload × Device × Allocator :=
  if buffer.size < offset + data.length then
    (.error ⟨.outOfBounds, "Buffer upload failed"⟩, u, dev, alloc)
  else
    let props := alloc.properties buffer.block
    if props.cpu_visible then
      let dev1 := update_cpu_visible_block dev props.coherent buffer.block offset data
      (.ok none, u, dev1, alloc)
    else
      u.upload_device_local_buffer dev alloc buffer offset data

/-- `Upload::upload_image`: always stages through a fresh CPU-visible buffer
and records one buffer-to-image copy. -/
def Upload.upload_image (u : Upload) (dev : Device) (alloc : Allocator)
    (image : SmartImage) (data : List Nat) (layout : Nat) (layers : Nat)
    (offset : Nat) (extent : Nat) :
    Except UploadError SmartBuffer × Upload × Device × Allocator :=
  match alloc.create_buffer data.length with
  | .error _ =>
    (.error ⟨.allocError, "Failed to create staging buffer"⟩, u, dev, alloc)
  | .ok (staging, alloc1) =>
    let props := alloc1.properties staging.block
    let dev1 := update_cpu_visible_block dev props.coherent staging.block 0 data
    let u1 := u.recordCommand
      (.copyBufferToImage staging.raw image.raw layout
        [{ buffer_offset := 0
           buffer_width := 0
           buffer_height := 0
           image_layers := layers
           image_offset := offset
           image_extent := extent }])
    (.ok staging, u1, dev1, alloc1)

/-- `Upload::uploads(frame)`: if a current buffer exists, finish it, move it to
the back of the in-flight queue tagged with `frame`, and return it with the
queue family. -/
def Upload.uploads (u : Upload) (frame : Nat) :
    Option (CommandBuffer × Nat) × Upload :=
  match u.cbuf with
  | some cb =>
    let cb1 := cb.finish
    (some (cb1, u.family),
      { u with cbuf := none, used := u.used ++ [(cb1, frame)] })
  | none => (none, u)

/-- The loop body of `Upload::clear`: pop retired front entries into the free
list, stopping at the first entry whose frame is still `≥ ongoing`, which is
re-inserted at the front with its tag rewritten to `ongoing`. -/
def clearLoop (ongoing : Nat) (used : List (CommandBuffer × Nat))
    (free : List CommandBuffer) : List (CommandBuffer × Nat) × List CommandBuffer :=
  match used with
  | [] => ([], free)
  | (cb, frame) :: rest =>
    if frame ≥ ongoing then ((cb, ongoing) :: rest, free)
    else clearLoop ongoing rest (free ++ [cb.reset])

/-- `Upload::clear(ongoing)`. -/
def Upload.clear (u : Upload) (ongoing : Nat) : Upload :=
  let (used1, free1) := clearLoop ongoing u.used u.free
  { u with used := used1, free := free1 }

/-- The command list of the (possibly about-to-be-acquired) current command
buffer: what `get_command_buffer` would hand out to record into. -/
def currentCommands (u : Upload) : List Command :=
  (u.get_command_buffer).1.commands

/-- The in-flight queue is ordered by its frame tags, non-decreasing
(front = oldest). -/
def sortedTags : List (CommandBuffer × Nat) → Bool
  | [] => true
  | [_] => true
  | (_, a) :: (c2, b) :: rest => decide (a ≤ b) && sortedTags ((c2, b) :: rest)

/-- One externally visible operation on the Upload context. -/
inductive Op where
  | ubuf (buffer : SmartBuffer) (offset : Nat) (data : List Nat)
  | uimg (image : SmartImage) (data : List Nat) (layout : Nat) (layers : Nat)
      (offset : Nat) (extent : Nat)
  | ups (frame : Nat)
  | clr (watermark : Nat)

/-- The whole mutable state an operation touches: the Upload context, the
device, and the allocator. -/
structure SysState where
  upload : Upload
  dev : Device
  alloc : Allocator

/-- Apply one operation (errors leave the state as the code left it). -/
def stepOp (s : SysState) : Op → SysState
  | .ubuf b off d =>
    let r := s.upload.upload_buffer s.dev s.alloc b off d
    { upload := r.2.1, dev := r.2.2.1, alloc := r.2.2.2 }
  | .uimg i d l ly off e =>
    let r := s.upload.upload_image s.dev s.alloc i d l ly off e
    { upload := r.2.1, dev := r.2.2.1, alloc := r.2.2.2 }
  | .ups f => { s with upload := (s.upload.uploads f).2 }
  | .clr w => { s with upload := s.upload.clear w }

/-- Apply a sequence of operations, left to right. -/
def runOps (s : SysState) : List Op → SysState
  | [] => s
  | op :: rest => runOps (stepOp s op) rest

/-- The frames passed to `uploads` along the trace are non-decreasing,
starting from `lo`. -/
def framesMonoFrom : Nat → List Op → Bool
  | _, [] => true
  | lo, .ups f :: rest => decide (lo ≤ f) && framesMonoFrom f rest
  | lo, .clr _ :: rest => framesMonoFrom lo rest
  | lo, .ubuf _ _ _ :: rest => framesMonoFrom lo rest
  | lo, .uimg _ _ _ _ _ _ :: rest => framesMonoFrom lo rest

/-- The watermarks passed to `clear` along the trace are non-decreasing,
starting from `lo`. -/
def watermarksMonoFrom : Nat → List Op → Bool
  | _, [] => true
  | lo, .ups _ :: rest => watermarksMonoFrom lo rest
  | lo, .clr w :: rest => decide (lo ≤ w) && watermarksMonoFrom w rest
  | lo, .ubuf _ _ _ :: rest => watermarksMonoFrom lo rest
  | lo, .uimg _ _ _ _ _ _ :: rest => watermarksMonoFrom lo rest

/-! Concrete sample values used to instantiate the theorems. Memory handles
below 100 are device-local (neither CPU-visible nor coherent); handles from
100 up are CPU-visible and coherent, and the allocator hands out fresh
handles starting at 100. -/

/-- A sample device whose memory is all zeroes and whose log is empty. -/
def exDevice : Device := { mem := fun _ _ => 0, log := [] }

/-- A sample allocator: fresh handles from 100, every allocation succeeds. -/
def exAlloc : Allocator :=
  { props := fun m => if m < 100 then ⟨false, false⟩ else ⟨true, true⟩
    nextId := 100
    canAlloc := fun _ => true }

/-- The same allocator with every allocation failing (out of memory). -/
def exAllocFail : Allocator := { exAlloc with canAlloc := fun _ => false }

/-- A 256-byte device-local buffer. -/
def exBuf : SmartBuffer := ⟨1, ⟨1, ⟨0, 256⟩⟩⟩

/-- A 200-byte device-local buffer. -/
def exBuf200 : SmartBuffer := ⟨2, ⟨2, ⟨0, 200⟩⟩⟩

/-- A 40-byte CPU-visible coherent buffer whose block starts at address 10 of
memory 200. -/
def exBufVis : SmartBuffer := ⟨3, ⟨200, ⟨10, 50⟩⟩⟩

/-- A sample image. -/
def exImage : SmartImage := ⟨9, ⟨9, ⟨0, 1024⟩⟩⟩

/-- A fresh Upload context: staging threshold 64 bytes, queue family 7. -/
def exUpload : Upload := Upload.new 64 7

/-- An Upload context with three in-flight buffers tagged with frames 1, 2
and 4. -/
def exUsedQueue : Upload :=
  { exUpload with
    used := [(⟨.executable, []⟩, 1), (⟨.executable, []⟩, 2),
             (⟨.executable, []⟩, 4)] }

/-! ## Helper lemmas -/

theorem range_map_getD (d : List Nat) :
    (List.range d.length).map (fun i => d.getD i 0) = d := by
  induction d with
  | nil => rfl
  | cons a t ih =>
    rw [List.length_cons, List.range_succ_eq_map, List.map_cons, List.map_map]
    simp only [List.getD_cons_zero, Function.comp_def, Nat.succ_eq_add_one,
      List.getD_cons_succ]
    exact congrArg (a :: ·) ih

theorem writeMem_same (m : MemStore) (id s : Nat) (d : List Nat) (i : Nat)
    (h : i < d.length) : writeMem m id s d id (s + i) = d.getD i 0 := by
  unfold writeMem writeBytes
  rw [if_pos rfl, if_pos ⟨Nat.le_add_right s i, by omega⟩, Nat.add_sub_cancel_left]

theorem readBytes_writeMem (m : MemStore) (id s : Nat) (d : List Nat) :
    readBytes (writeMem m id s d) id s d.length = d := by
  have h1 : ∀ i ∈ List.range d.length,
      writeMem m id s d id (s + i) = d.getD i 0 := fun i hi =>
    writeMem_same m id s d i (List.mem_range.mp hi)
  calc readBytes (writeMem m id s d) id s d.length
      = (List.range d.length).map (fun i => d.getD i 0) := List.map_congr_left h1
    _ = d := range_map_getD d

theorem writeMem_frame (m : MemStore) (id s : Nat) (d : List Nat) (j a : Nat)
    (h : j ≠ id ∨ a < s ∨ s + d.length ≤ a) :
    writeMem m id s d j a = m j a := by
  unfold writeMem writeBytes
  by_cases hj : j = id
  · subst hj
    rw [if_pos rfl, if_neg]
    rintro ⟨h1, h2⟩
    rcases h with h | h | h
    · exact h rfl
    · omega
    · omega
  · rw [if_neg hj]

theorem get_command_buffer_used (u : Upload) :
    (u.get_command_buffer).2.used = u.used := by
  unfold Upload.get_command_buffer
  cases u.cbuf with
  | some cb => rfl
  | none =>
    cases h : vecPop u.free with
    | some p =>
      obtain ⟨cb, rest⟩ := p
      simp
    | none => simp

theorem recordCommand_used (u : Upload) (c : Command) :
    (u.recordCommand c).used = u.used := by
  unfold Upload.recordCommand
  cases hgc : u.get_command_buffer with
  | mk cb u1 =>
    have h2 := get_command_buffer_used u
    rw [hgc] at h2
    simpa using h2

theorem currentCommands_recordCommand (u : Upload) (c : Command) :
    currentCommands (u.recordCommand c) = currentCommands u ++ [c] := by
  unfold currentCommands Upload.recordCommand Upload.get_command_buffer
  cases u.cbuf with
  | some cb => simp [CommandBuffer.record]
  | none =>
    cases h : vecPop u.free with
    | some p =>
      obtain ⟨cb, rest⟩ := p
      simp [CommandBuffer.record, CommandBuffer.begin]
    | none => simp [CommandBuffer.record, CommandBuffer.begin, newCommandBuffer]

/-- Evaluation of `upload_buffer` on an in-bounds, CPU-visible target: a
direct write through `update_cpu_visible_block`, everything else untouched. -/
theorem upload_buffer_cpu_visible_eval (u : Upload) (dev : Device)
    (alloc : Allocator) (buffer : SmartBuffer) (offset : Nat) (data : List Nat)
    (hbound : offset + data.length ≤ buffer.size)
    (hvis : (alloc.properties buffer.block).cpu_visible = true) :
    u.upload_buffer dev alloc buffer offset data =
      (.ok none, u,
        update_cpu_visible_block dev (alloc.properties buffer.block).coherent
          buffer.block offset data,
        alloc) := by
  have hlt : ¬ buffer.size < offset + data.length := Nat.not_lt.mpr hbound
  unfold Upload.upload_buffer
  rw [if_neg hlt]
  simp only [hvis, if_true]

/-! ## Claim theorems -/

/-- Claim C1: an `upload_buffer` request with `offset + len(payload) >
size(target)` fails with the OutOfBounds error chained with the context
message "Buffer upload failed", and the Upload context, the device (memory
contents and operation log) and the allocator are all returned unchanged: no
memory write happens and no command is recorded. -/
theorem upload_buffer_out_of_bounds (u : Upload) (dev : Device)
    (alloc : Allocator) (buffer : SmartBuffer) (offset : Nat) (data : List Nat)
    (h : buffer.size < offset + data.length) :
    u.upload_buffer dev alloc buffer offset data =
      (.error ⟨.outOfBounds, "Buffer upload failed"⟩, u, dev, alloc) := by
  unfold Upload.upload_buffer
  rw [if_pos h]

set_option maxRecDepth 10000 in
/-- Witness for Claim C1: uploading 128 bytes at offset 100 into a 200-byte
buffer is rejected with OutOfBounds and no state change. -/
theorem upload_buffer_out_of_bounds_witness :
    exBuf200.size < 100 + (List.replicate 128 9).length ∧
    exUpload.upload_buffer exDevice exAlloc exBuf200 100 (List.replicate 128 9) =
      (.error ⟨.outOfBounds, "Buffer upload failed"⟩, exUpload, exDevice, exAlloc) :=
  ⟨by decide,
   upload_buffer_out_of_bounds exUpload exDevice exAlloc exBuf200 100
     (List.replicate 128 9) (by decide)⟩

/-- Claim C2: an in-bounds `upload_buffer` request on a CPU-visible target
writes the payload directly into the target block at the given offset (the
block's memory is overwritten at absolute range `[start + offset,
start + offset + len)`, and reading that range back yields exactly the
payload), returns `None`, and leaves the Upload context and the allocator
unchanged (no staging allocation). -/
theorem upload_buffer_cpu_visible_direct (u : Upload) (dev : Device)
    (alloc : Allocator) (buffer : SmartBuffer) (offset : Nat) (data : List Nat)
    (hbound : offset + data.length ≤ buffer.size)
    (hvis : (alloc.properties buffer.block).cpu_visible = true) :
    (u.upload_buffer dev alloc buffer offset data).1 = .ok none ∧
    (u.upload_buffer dev alloc buffer offset data).2.1 = u ∧
    (u.upload_buffer dev alloc buffer offset data).2.2.2 = alloc ∧
    (u.upload_buffer dev alloc buffer offset data).2.2.1.mem =
      writeMem dev.mem buffer.block.memory (buffer.block.range.start + offset)
        data ∧
    readBytes (u.upload_buffer dev alloc buffer offset data).2.2.1.mem
      buffer.block.memory (buffer.block.range.start + offset) data.length =
      data := by
  have heval := upload_buffer_cpu_visible_eval u dev alloc buffer offset data
    hbound hvis
  refine ⟨by rw [heval], by rw [heval], by rw [heval], by rw [heval]; rfl, ?_⟩
  rw [heval]
  exact readBytes_writeMem dev.mem buffer.block.memory
    (buffer.block.range.start + offset) data

/-- Witness for Claim C2: writing `[1, 2, 3]` at offset 4 into a CPU-visible
40-byte buffer whose block starts at address 10 of memory 200. -/
theorem upload_buffer_cpu_visible_direct_witness :
    (exUpload.upload_buffer exDevice exAlloc exBufVis 4 [1, 2, 3]).1 = .ok none ∧
    (exUpload.upload_buffer exDevice exAlloc exBufVis 4 [1, 2, 3]).2.1 = exUpload ∧
    (exUpload.upload_buffer exDevice exAlloc exBufVis 4 [1, 2, 3]).2.2.2 = exAlloc ∧
    (exUpload.upload_buffer exDevice exAlloc exBufVis 4 [1, 2, 3]).2.2.1.mem =
      writeMem exDevice.mem 200 (10 + 4) [1, 2, 3] ∧
    readBytes (exUpload.upload_buffer exDevice exAlloc exBufVis 4 [1, 2, 3]).2.2.1.mem
      200 (10 + 4) 3 = [1, 2, 3] :=
  upload_buffer_cpu_visible_direct exUpload exDevice exAlloc exBufVis 4 [1, 2, 3]
    (by decide) (by decide)

/-- Claim C10: on the CPU-visible direct-write path, the command-buffer
lifecycle state is untouched: the pool, the current-buffer slot, the free
list and the in-flight queue are exactly as before the call. -/
theorem upload_buffer_cpu_visible_lifecycle (u : Upload) (dev : Device)
    (alloc : Allocator) (buffer : SmartBuffer) (offset : Nat) (data : List Nat)
    (hbound : offset + data.length ≤ buffer.size)
    (hvis : (alloc.properties buffer.block).cpu_visible = true) :
    (u.upload_buffer dev alloc buffer offset data).2.1.pool = u.pool ∧
    (u.upload_buffer dev alloc buffer offset data).2.1.cbuf = u.cbuf ∧
    (u.upload_buffer dev alloc buffer offset data).2.1.free = u.free ∧
    (u.upload_buffer dev alloc buffer offset data).2.1.used = u.used := by
  have heval := upload_buffer_cpu_visible_eval u dev alloc buffer offset data
    hbound hvis
  rw [heval]
  exact ⟨rfl, rfl, rfl, rfl⟩

/-- Witness for Claim C10 on a concrete CPU-visible upload. -/
theorem upload_buffer_cpu_visible_lifecycle_witness :
    (exUpload.upload_buffer exDevice exAlloc exBufVis 4 [1, 2, 3]).2.1.pool =
      exUpload.pool ∧
    (exUpload.upload_buffer exDevice exAlloc exBufVis 4 [1, 2, 3]).2.1.cbuf =
      exUpload.cbuf ∧
    (exUpload.upload_buffer exDevice exAlloc exBufVis 4 [1, 2, 3]).2.1.free =
      exUpload.free ∧
    (exUpload.upload_buffer exDevice exAlloc exBufVis 4 [1, 2, 3]).2.1.used =
      exUpload.used :=
  upload_buffer_cpu_visible_lifecycle exUpload exDevice exAlloc exBufVis 4
    [1, 2, 3] (by decide) (by decide)

/-- Claim C8: `update_cpu_visible_block` maps exactly the absolute range
`[block.start + offset, block.start + offset + len)`; when `coherent` is
false it invalidates that range before the write and flushes it after the
write, and when `coherent` is true it neither invalidates nor flushes; the
payload bytes are copied verbatim into the range (reading it back yields the
payload) and no byte outside the range, in any memory, is modified. -/
theorem update_cpu_visible_block_spec (dev : Device) (coherent : Bool)
    (block : SmartBlock) (offset : Nat) (data : List Nat) :
    (update_cpu_visible_block dev coherent block offset data).log =
      dev.log ++
        (if coherent then
          [DeviceEvent.mapMemory block.memory
             ⟨block.range.start + offset, block.range.start + offset + data.length⟩,
           DeviceEvent.write block.memory (block.range.start + offset) data]
         else
          [DeviceEvent.mapMemory block.memory
             ⟨block.range.start + offset, block.range.start + offset + data.length⟩,
           DeviceEvent.invalidate block.memory
             ⟨block.range.start + offset, block.range.start + offset + data.length⟩,
           DeviceEvent.write block.memory (block.range.start + offset) data,
           DeviceEvent.flush block.memory
             ⟨block.range.start + offset, block.range.start + offset + data.length⟩]) ∧
    readBytes (update_cpu_visible_block dev coherent block offset data).mem
      block.memory (block.range.start + offset) data.length = data ∧
    (∀ j a,
      (j ≠ block.memory ∨ a < block.range.start + offset ∨
        block.range.start + offset + data.length ≤ a) →
      (update_cpu_visible_block dev coherent block offset data).mem j a =
        dev.mem j a) := by
  refine ⟨?_, ?_, ?_⟩
  · cases coherent <;> simp [update_cpu_visible_block]
  · exact readBytes_writeMem dev.mem block.memory
      (block.range.start + offset) data
  · intro j a ha
    exact writeMem_frame dev.mem block.memory (block.range.start + offset)
      data j a ha

/-- Witness for Claim C8: a non-coherent write of `[7, 8]` at offset 2 into a
block spanning `[10, 20)` of memory 5 — the full map/invalidate/write/flush
sequence appears, the bytes read back, and a byte outside the range is
untouched. -/
theorem update_cpu_visible_block_spec_witness :
    (update_cpu_visible_block exDevice false ⟨5, ⟨10, 20⟩⟩ 2 [7, 8]).log =
      [DeviceEvent.mapMemory 5 ⟨12, 14⟩, DeviceEvent.invalidate 5 ⟨12, 14⟩,
       DeviceEvent.write 5 12 [7, 8], DeviceEvent.flush 5 ⟨12, 14⟩] ∧
    readBytes (update_cpu_visible_block exDevice false ⟨5, ⟨10, 20⟩⟩ 2 [7, 8]).mem
      5 12 2 = [7, 8] ∧
    (update_cpu_visible_block exDevice false ⟨5, ⟨10, 20⟩⟩ 2 [7, 8]).mem 5 20 =
      exDevice.mem 5 20 := by
  obtain ⟨h1, h2, h3⟩ :=
    update_cpu_visible_block_spec exDevice false ⟨5, ⟨10, 20⟩⟩ 2 [7, 8]
  exact ⟨by simpa using h1, h2, h3 5 20 (by decide)⟩

/-- Claim C9: `upload_image` performs no bounds or size validation: the only
error it can return is the allocation failure chained with "Failed to create
staging buffer"; in particular it never returns OutOfBounds. -/
theorem upload_image_error_only_alloc (u : Upload) (dev : Device)
    (alloc : Allocator) (image : SmartImage) (data : List Nat) (layout : Nat)
    (layers : Nat) (offset : Nat) (extent : Nat) :
    ∀ e, (u.upload_image dev alloc image data layout layers offset extent).1 =
        .error e →
      e = ⟨.allocError, "Failed to create staging buffer"⟩ := by
  intro e he
  unfold Upload.upload_image at he
  cases h : alloc.create_buffer data.length with
  | error eu =>
    rw [h] at he
    simp at he
    exact he.symm
  | ok p =>
    obtain ⟨staging, a1⟩ := p
    rw [h] at he
    simp at he

/-- Witness for Claim C9: with an out-of-memory allocator the returned error
is exactly the staging-allocation failure. -/
theorem upload_image_error_only_alloc_witness :
    (exUpload.upload_image exDevice exAllocFail exImage [1, 2] 0 0 0 0).1 =
      .error ⟨.allocError, "Failed to create staging buffer"⟩ ∧
    (⟨.allocError, "Failed to create staging buffer"⟩ : UploadError) =
      ⟨.allocError, "Failed to create staging buffer"⟩ :=
  ⟨rfl,
   upload_image_error_only_alloc exUpload exDevice exAllocFail exImage [1, 2]
     0 0 0 0 ⟨.allocError, "Failed to create staging buffer"⟩ rfl⟩

/-- Claim C3: for an in-bounds upload to a device-local (not CPU-visible)
target: when `len(payload) ≤ staging_threshold`, exactly one inline
buffer-update command at the given offset is appended to the current command
buffer, `None` is returned, and the device and allocator are untouched; when
`len(payload) > staging_threshold` (and the allocation succeeds), a
CPU-visible staging buffer of size exactly `len(payload)` is created and
filled with the payload, exactly one buffer-to-buffer copy command with
src offset 0, dst offset = `offset`, size = `len(payload)` is appended, and
the staging allocation is returned. -/
theorem upload_buffer_device_local_paths (u : Upload) (dev : Device)
    (alloc : Allocator) (buffer : SmartBuffer) (offset : Nat) (data : List Nat)
    (hbound : offset + data.length ≤ buffer.size)
    (hdev : (alloc.properties buffer.block).cpu_visible = false) :
    (data.length ≤ u.staging_threshold →
      (u.upload_buffer dev alloc buffer offset data).1 = .ok none ∧
      currentCommands (u.upload_buffer dev alloc buffer offset data).2.1 =
        currentCommands u ++ [.updateBuffer buffer.raw offset data] ∧
      (u.upload_buffer dev alloc buffer offset data).2.1.used = u.used ∧
      (u.upload_buffer dev alloc buffer offset data).2.2.1 = dev ∧
      (u.upload_buffer dev alloc buffer offset data).2.2.2 = alloc) ∧
    (u.staging_threshold < data.length → alloc.canAlloc data.length = true →
      ∃ staging : SmartBuffer,
        (u.upload_buffer dev alloc buffer offset data).1 = .ok (some staging) ∧
        staging.size = data.length ∧
        readBytes (u.upload_buffer dev alloc buffer offset data).2.2.1.mem
          staging.block.memory 0 data.length = data ∧
        currentCommands (u.upload_buffer dev alloc buffer offset data).2.1 =
          currentCommands u ++
            [.copyBuffer staging.raw buffer.raw [⟨0, offset, data.length⟩]] ∧
        (u.upload_buffer dev alloc buffer offset data).2.1.used = u.used) := by
  have hlt : ¬ buffer.size < offset + data.length := Nat.not_lt.mpr hbound
  have heval : u.upload_buffer dev alloc buffer offset data =
      u.upload_device_local_buffer dev alloc buffer offset data := by
    unfold Upload.upload_buffer
    rw [if_neg hlt]
    simp only [hdev, Bool.false_eq_true, if_false]
  constructor
  · intro hsmall
    have he2 : u.upload_device_local_buffer dev alloc buffer offset data =
        (.ok none, u.recordCommand (.updateBuffer buffer.raw offset data),
         dev, alloc) := by
      unfold Upload.upload_device_local_buffer
      rw [if_pos hsmall]
    rw [heval, he2]
    exact ⟨rfl, currentCommands_recordCommand u _, recordCommand_used u _,
      rfl, rfl⟩
  · intro hlarge halloc
    have hns : ¬ data.length ≤ u.staging_threshold := Nat.not_le.mpr hlarge
    have hcb : alloc.create_buffer data.length =
        .ok (⟨alloc.nextId, ⟨alloc.nextId, ⟨0, data.length⟩⟩⟩,
          { alloc with
            nextId := alloc.nextId + 1
            props := fun m =>
              if m = alloc.nextId then
                { cpu_visible := true
                  coherent := (alloc.props alloc.nextId).coherent }
              else alloc.props m }) := by
      unfold Allocator.create_buffer
      rw [if_pos halloc]
    have he3 : u.upload_device_local_buffer dev alloc buffer offset data =
        (.ok (some ⟨alloc.nextId, ⟨alloc.nextId, ⟨0, data.length⟩⟩⟩),
         u.recordCommand
           (.copyBuffer alloc.nextId buffer.raw [⟨0, offset, data.length⟩]),
         update_cpu_visible_block dev
           (alloc.props alloc.nextId).coherent
           ⟨alloc.nextId, ⟨0, data.length⟩⟩ 0 data,
         { alloc with
           nextId := alloc.nextId + 1
           props := fun m =>
             if m = alloc.nextId then
               { cpu_visible := true
                 coherent := (alloc.props alloc.nextId).coherent }
             else alloc.props m }) := by
      unfold Upload.upload_device_local_buffer
      rw [if_neg hns, hcb]
      simp [Allocator.properties]
    refine ⟨⟨alloc.nextId, ⟨alloc.nextId, ⟨0, data.length⟩⟩⟩, ?_, ?_, ?_, ?_, ?_⟩
    · rw [heval, he3]
    · simp [SmartBuffer.size]
    · rw [heval, he3]
      exact readBytes_writeMem dev.mem alloc.nextId 0 data
    · rw [heval, he3]
      exact currentCommands_recordCommand u _
    · rw [heval, he3]
      exact recordCommand_used u _

set_option maxRecDepth 40000 in
/-- Witness for Claim C3: with threshold 64, a 32-byte upload to a 256-byte
device-local buffer takes the inline-update path, and a 128-byte upload takes
the staging-copy path with dst = 0 and size = 128. -/
theorem upload_buffer_device_local_paths_witness :
    ((exUpload.upload_buffer exDevice exAlloc exBuf 0 (List.replicate 32 5)).1 =
        .ok none ∧
      currentCommands
          (exUpload.upload_buffer exDevice exAlloc exBuf 0
            (List.replicate 32 5)).2.1 =
        currentCommands exUpload ++ [.updateBuffer 1 0 (List.replicate 32 5)] ∧
      (exUpload.upload_buffer exDevice exAlloc exBuf 0
          (List.replicate 32 5)).2.1.used = exUpload.used ∧
      (exUpload.upload_buffer exDevice exAlloc exBuf 0
          (List.replicate 32 5)).2.2.1 = exDevice ∧
      (exUpload.upload_buffer exDevice exAlloc exBuf 0
          (List.replicate 32 5)).2.2.2 = exAlloc) ∧
    (∃ staging : SmartBuffer,
      (exUpload.upload_buffer exDevice exAlloc exBuf 0
          (List.replicate 128 9)).1 = .ok (some staging) ∧
      staging.size = (List.replicate 128 9).length ∧
      readBytes
          (exUpload.upload_buffer exDevice exAlloc exBuf 0
            (List.replicate 128 9)).2.2.1.mem
          staging.block.memory 0 (List.replicate 128 9).length =
        List.replicate 128 9 ∧
      currentCommands
          (exUpload.upload_buffer exDevice exAlloc exBuf 0
            (List.replicate 128 9)).2.1 =
        currentCommands exUpload ++
          [.copyBuffer staging.raw 1 [⟨0, 0, (List.replicate 128 9).length⟩]] ∧
      (exUpload.upload_buffer exDevice exAlloc exBuf 0
          (List.replicate 128 9)).2.1.used = exUpload.used) :=
  ⟨(upload_buffer_device_local_paths exUpload exDevice exAlloc exBuf 0
      (List.replicate 32 5) (by decide) (by decide)).1 (by decide),
   (upload_buffer_device_local_paths exUpload exDevice exAlloc exBuf 0
      (List.replicate 128 9) (by decide) (by decide)).2 (by decide) (by decide)⟩

/-- Claim C4: `upload_image` (when the allocation succeeds, its only failure
mode) always allocates a staging buffer of size exactly `len(payload)`, fills
it with the payload, appends exactly one buffer-to-image copy command with
the given layout, subresource layers, image offset and extent and a tightly
packed region (buffer offset, row width and height all 0), and returns the
staging allocation; the in-flight queue is untouched. -/
theorem upload_image_spec (u : Upload) (dev : Device) (alloc : Allocator)
    (image : SmartImage) (data : List Nat) (layout : Nat) (layers : Nat)
    (offset : Nat) (extent : Nat)
    (halloc : alloc.canAlloc data.length = true) :
    ∃ staging : SmartBuffer,
      (u.upload_image dev alloc image data layout layers offset extent).1 =
        .ok staging ∧
      staging.size = data.length ∧
      readBytes
          (u.upload_image dev alloc image data layout layers offset
            extent).2.2.1.mem
          staging.block.memory 0 data.length = data ∧
      currentCommands
          (u.upload_image dev alloc image data layout layers offset
            extent).2.1 =
        currentCommands u ++
          [.copyBufferToImage staging.raw image.raw layout
            [⟨0, 0, 0, layers, offset, extent⟩]] ∧
      (u.upload_image dev alloc image data layout layers offset
          extent).2.1.used = u.used := by
  have hcb : alloc.create_buffer data.length =
      .ok (⟨alloc.nextId, ⟨alloc.nextId, ⟨0, data.length⟩⟩⟩,
        { alloc with
          nextId := alloc.nextId + 1
          props := fun m =>
            if m = alloc.nextId then
              { cpu_visible := true
                coherent := (alloc.props alloc.nextId).coherent }
            else alloc.props m }) := by
    unfold Allocator.create_buffer
    rw [if_pos halloc]
  have he : u.upload_image dev alloc image data layout layers offset extent =
      (.ok ⟨alloc.nextId, ⟨alloc.nextId, ⟨0, data.length⟩⟩⟩,
       u.recordCommand
         (.copyBufferToImage alloc.nextId image.raw layout
           [⟨0, 0, 0, layers, offset, extent⟩]),
       update_cpu_visible_block dev
         (alloc.props alloc.nextId).coherent
         ⟨alloc.nextId, ⟨0, data.length⟩⟩ 0 data,
       { alloc with
         nextId := alloc.nextId + 1
         props := fun m =>
           if m = alloc.nextId then
             { cpu_visible := true
               coherent := (alloc.props alloc.nextId).coherent }
           else alloc.props m }) := by
    unfold Upload.upload_image
    rw [hcb]
    simp [Allocator.properties]
  refine ⟨⟨alloc.nextId, ⟨alloc.nextId, ⟨0, data.length⟩⟩⟩, ?_, ?_, ?_, ?_, ?_⟩
  · rw [he]
  · simp [SmartBuffer.size]
  · rw [he]
    exact readBytes_writeMem dev.mem alloc.nextId 0 data
  · rw [he]
    exact currentCommands_recordCommand u _
  · rw [he]
    exact recordCommand_used u _

/-- Witness for Claim C4: uploading `[3, 1, 4]` to a sample image records one
tightly packed buffer-to-image copy and returns a 3-byte staging buffer. -/
theorem upload_image_spec_witness :
    exAlloc.canAlloc 3 = true ∧
    ∃ staging : SmartBuffer,
      (exUpload.upload_image exDevice exAlloc exImage [3, 1, 4] 11 12 13 14).1 =
        .ok staging ∧
      staging.size = 3 ∧
      readBytes
          (exUpload.upload_image exDevice exAlloc exImage [3, 1, 4] 11 12 13
            14).2.2.1.mem
          staging.block.memory 0 3 = [3, 1, 4] ∧
      currentCommands
          (exUpload.upload_image exDevice exAlloc exImage [3, 1, 4] 11 12 13
            14).2.1 =
        currentCommands exUpload ++
          [.copyBufferToImage staging.raw 9 11 [⟨0, 0, 0, 12, 13, 14⟩]] ∧
      (exUpload.upload_image exDevice exAlloc exImage [3, 1, 4] 11 12 13
          14).2.1.used = exUpload.used :=
  ⟨rfl,
   upload_image_spec exUpload exDevice exAlloc exImage [3, 1, 4] 11 12 13 14
     (by decide)⟩

/-- Claim C5: `uploads(frame)` returns a value precisely when a current
recording buffer exists; in that case the buffer is finished and appended to
the back of the in-flight queue tagged with `frame`, and the finished buffer
is returned with the queue family; afterwards the current-buffer slot is
always empty, so a second `uploads` call with no intervening upload returns
`None`. -/
theorem uploads_spec (u : Upload) (frame frame2 : Nat) :
    ((u.uploads frame).1.isSome ↔ u.cbuf.isSome) ∧
    (u.uploads frame).2.cbuf = none ∧
    (∀ cb, u.cbuf = some cb →
      (u.uploads frame).1 = some (cb.finish, u.family) ∧
      (u.uploads frame).2.used = u.used ++ [(cb.finish, frame)]) ∧
    (u.cbuf = none → (u.uploads frame).1 = none ∧ (u.uploads frame).2 = u) ∧
    ((u.uploads frame).2.uploads frame2).1 = none := by
  cases hc : u.cbuf with
  | some cb =>
    refine ⟨by simp [Upload.uploads, hc], by simp [Upload.uploads, hc], ?_, ?_, ?_⟩
    · intro cb2 hcb2
      injection hcb2 with h
      subst h
      constructor <;> simp [Upload.uploads, hc]
    · intro h0
      exact absurd h0 (by simp)
    · simp [Upload.uploads, hc]
  | none =>
    refine ⟨by simp [Upload.uploads, hc], by simp [Upload.uploads, hc], ?_, ?_, ?_⟩
    · intro cb2 hcb2
      exact absurd hcb2 (by simp)
    · intro _
      constructor <;> simp [Upload.uploads, hc]
    · simp [Upload.uploads, hc]

/-- Witness for Claim C5 on a context whose current buffer holds one recorded
command: the first `uploads` call returns the finished buffer tagged 5, the
second returns nothing. -/
theorem uploads_spec_witness :
    ((({ exUpload with
          cbuf := some ⟨.recording, [.updateBuffer 1 0 [1, 2]]⟩ } :
        Upload).uploads 5).1.isSome ↔
      ({ exUpload with
          cbuf := some ⟨.recording, [.updateBuffer 1 0 [1, 2]]⟩ } :
        Upload).cbuf.isSome) ∧
    (({ exUpload with
        cbuf := some ⟨.recording, [.updateBuffer 1 0 [1, 2]]⟩ } :
      Upload).uploads 5).2.cbuf = none ∧
    (∀ cb,
      ({ exUpload with
          cbuf := some ⟨.recording, [.updateBuffer 1 0 [1, 2]]⟩ } :
        Upload).cbuf = some cb →
      (({ exUpload with
          cbuf := some ⟨.recording, [.updateBuffer 1 0 [1, 2]]⟩ } :
        Upload).uploads 5).1 =
        some (cb.finish,
          ({ exUpload with
              cbuf := some ⟨.recording, [.updateBuffer 1 0 [1, 2]]⟩ } :
            Upload).family) ∧
      (({ exUpload with
          cbuf := some ⟨.recording, [.updateBuffer 1 0 [1, 2]]⟩ } :
        Upload).uploads 5).2.used =
        ({ exUpload with
            cbuf := some ⟨.recording, [.updateBuffer 1 0 [1, 2]]⟩ } :
          Upload).used ++ [(cb.finish, 5)]) ∧
    (({ exUpload with
        cbuf := some ⟨.recording, [.updateBuffer 1 0 [1, 2]]⟩ } :
      Upload).cbuf = none →
      (({ exUpload with
          cbuf := some ⟨.recording, [.updateBuffer 1 0 [1, 2]]⟩ } :
        Upload).uploads 5).1 = none ∧
      (({ exUpload with
          cbuf := some ⟨.recording, [.updateBuffer 1 0 [1, 2]]⟩ } :
        Upload).uploads 5).2 =
        { exUpload with
          cbuf := some ⟨.recording, [.updateBuffer 1 0 [1, 2]]⟩ }) ∧
    ((({ exUpload with
        cbuf := some ⟨.recording, [.updateBuffer 1 0 [1, 2]]⟩ } :
      Upload).uploads 5).2.uploads 6).1 = none :=
  uploads_spec
    { exUpload with cbuf := some ⟨.recording, [.updateBuffer 1 0 [1, 2]]⟩ } 5 6

/-! ## Ordering lemmas for the in-flight queue -/

theorem sortedTags_tail (q : CommandBuffer × Nat) (l : List (CommandBuffer × Nat))
    (h : sortedTags (q :: l) = true) : sortedTags l = true := by
  obtain ⟨c, f⟩ := q
  cases l with
  | nil => rfl
  | cons q2 rest =>
    obtain ⟨c2, b⟩ := q2
    have h1 : f ≤ b ∧ sortedTags ((c2, b) :: rest) = true := by
      simpa [sortedTags] using h
    exact h1.2

theorem sortedTags_head_le (l : List (CommandBuffer × Nat)) (c : CommandBuffer)
    (f : Nat) (h : sortedTags ((c, f) :: l) = true) :
    ∀ p ∈ l, f ≤ p.2 := by
  induction l generalizing c f with
  | nil =>
    intro p hp
    simp at hp
  | cons q rest ih =>
    obtain ⟨c2, b⟩ := q
    intro p hp
    have h1 : f ≤ b ∧ sortedTags ((c2, b) :: rest) = true := by
      simpa [sortedTags] using h
    rcases List.mem_cons.mp hp with rfl | hp2
    · exact h1.1
    · exact le_trans h1.1 (ih c2 b h1.2 p hp2)

theorem sortedTags_append (l : List (CommandBuffer × Nat)) (cb : CommandBuffer)
    (f : Nat) (hs : sortedTags l = true) (hb : ∀ p ∈ l, p.2 ≤ f) :
    sortedTags (l ++ [(cb, f)]) = true := by
  induction l with
  | nil => rfl
  | cons q rest ih =>
    obtain ⟨c1, a⟩ := q
    cases rest with
    | nil =>
      have ha : a ≤ f := hb (c1, a) (by simp)
      simp [sortedTags, ha]
    | cons q2 rest2 =>
      obtain ⟨c2, b⟩ := q2
      have h1 : a ≤ b ∧ sortedTags ((c2, b) :: rest2) = true := by
        simpa [sortedTags] using hs
      have h2 : sortedTags ((c2, b) :: (rest2 ++ [(cb, f)])) = true := by
        have h3 := ih h1.2 (fun p hp => hb p (List.mem_cons_of_mem _ hp))
        simpa using h3
      show sortedTags ((c1, a) :: (c2, b) :: (rest2 ++ [(cb, f)])) = true
      simp [sortedTags, h1.1, h2]

theorem takeWhile_eq_filter_of_sorted (w : Nat)
    (used : List (CommandBuffer × Nat)) (h : sortedTags used = true) :
    used.takeWhile (fun p => decide (p.2 < w)) =
      used.filter (fun p => decide (p.2 < w)) := by
  induction used with
  | nil => rfl
  | cons q rest ih =>
    obtain ⟨cb, f⟩ := q
    by_cases hf : f < w
    · simp [List.takeWhile_cons, List.filter_cons, hf,
        ih (sortedTags_tail _ _ h)]
    · have hall := sortedTags_head_le rest cb f h
      have hfilter : rest.filter (fun p => decide (p.2 < w)) = [] := by
        rw [List.filter_eq_nil_iff]
        intro p hp
        simp only [decide_eq_true_eq]
        have := hall p hp
        omega
      simp [List.takeWhile_cons, List.filter_cons, hf, hfilter]

theorem clearLoop_eq (w : Nat) (used : List (CommandBuffer × Nat)) :
    ∀ free, clearLoop w used free =
      ((match used.dropWhile (fun p => decide (p.2 < w)) with
        | [] => []
        | (cb, _) :: rest => (cb, w) :: rest),
       free ++ (used.takeWhile (fun p => decide (p.2 < w))).map
         (fun p => p.1.reset)) := by
  induction used with
  | nil =>
    intro free
    simp [clearLoop]
  | cons q rest ih =>
    intro free
    obtain ⟨cb, f⟩ := q
    by_cases hf : w ≤ f
    · have hd : decide (f < w) = false := decide_eq_false (Nat.not_lt.mpr hf)
      simp [clearLoop, hf, List.dropWhile_cons, List.takeWhile_cons, hd]
    · have hd : decide (f < w) = true := decide_eq_true (Nat.not_le.mp hf)
      simp [clearLoop, hf, List.dropWhile_cons, List.takeWhile_cons, hd, ih]

theorem clearLoop_sorted (w : Nat) (used : List (CommandBuffer × Nat)) :
    ∀ free, sortedTags used = true →
      sortedTags (clearLoop w used free).1 = true := by
  induction used with
  | nil =>
    intro free _
    simp [clearLoop, sortedTags]
  | cons q rest ih =>
    intro free hs
    obtain ⟨cb, f⟩ := q
    by_cases hf : f ≥ w
    · simp only [clearLoop]
      rw [if_pos hf]
      show sortedTags ((cb, w) :: rest) = true
      cases rest with
      | nil => rfl
      | cons q2 rest2 =>
        obtain ⟨c2, b⟩ := q2
        have h1 : f ≤ b ∧ sortedTags ((c2, b) :: rest2) = true := by
          simpa [sortedTags] using hs
        have hwb : w ≤ b := le_trans hf h1.1
        simp [sortedTags, hwb, h1.2]
    · simp only [clearLoop]
      rw [if_neg hf]
      exact ih (free ++ [cb.reset]) (sortedTags_tail _ _ hs)

theorem clearLoop_tags_le (w hi : Nat) (used : List (CommandBuffer × Nat)) :
    ∀ free, (∀ p ∈ used, p.2 ≤ hi) →
      ∀ p ∈ (clearLoop w used free).1, p.2 ≤ hi := by
  induction used with
  | nil =>
    intro free _ p hp
    simp [clearLoop] at hp
  | cons q rest ih =>
    intro free hb p hp
    obtain ⟨cb, f⟩ := q
    by_cases hf : f ≥ w
    · simp only [clearLoop] at hp
      rw [if_pos hf] at hp
      have hp2 : p ∈ (cb, w) :: rest := hp
      rcases List.mem_cons.mp hp2 with rfl | hp3
      · exact le_trans hf (hb (cb, f) (by simp))
      · exact hb p (List.mem_cons_of_mem _ hp3)
    · simp only [clearLoop] at hp
      rw [if_neg hf] at hp
      exact ih (free ++ [cb.reset])
        (fun p2 hp2 => hb p2 (List.mem_cons_of_mem _ hp2)) p hp

theorem clear_used (u : Upload) (w : Nat) :
    (u.clear w).used = (clearLoop w u.used u.free).1 := by
  unfold Upload.clear
  cases hcl : clearLoop w u.used u.free with
  | mk used1 free1 => simp

theorem upload_device_local_buffer_used (u : Upload) (dev : Device)
    (alloc : Allocator) (buffer : SmartBuffer) (offset : Nat)
    (data : List Nat) :
    (u.upload_device_local_buffer dev alloc buffer offset data).2.1.used =
      u.used := by
  unfold Upload.upload_device_local_buffer
  by_cases h : data.length ≤ u.staging_threshold
  · rw [if_pos h]
    exact recordCommand_used u _
  · rw [if_neg h]
    cases hcb : alloc.create_buffer data.length with
    | error e => rfl
    | ok p =>
      obtain ⟨staging, a1⟩ := p
      exact recordCommand_used u _

theorem upload_buffer_used (u : Upload) (dev : Device) (alloc : Allocator)
    (buffer : SmartBuffer) (offset : Nat) (data : List Nat) :
    (u.upload_buffer dev alloc buffer offset data).2.1.used = u.used := by
  unfold Upload.upload_buffer
  by_cases h1 : buffer.size < offset + data.length
  · rw [if_pos h1]
  · rw [if_neg h1]
    by_cases h2 : (alloc.properties buffer.block).cpu_visible = true
    · simp only [h2, if_true]
    · simp only [Bool.not_eq_true] at h2
      simp only [h2, Bool.false_eq_true, if_false]
      exact upload_device_local_buffer_used u dev alloc buffer offset data

theorem upload_image_used (u : Upload) (dev : Device) (alloc : Allocator)
    (image : SmartImage) (data : List Nat) (layout : Nat) (layers : Nat)
    (offset : Nat) (extent : Nat) :
    (u.upload_image dev alloc image data layout layers offset extent).2.1.used =
      u.used := by
  unfold Upload.upload_image
  cases hcb : alloc.create_buffer data.length with
  | error e => rfl
  | ok p =>
    obtain ⟨staging, a1⟩ := p
    exact recordCommand_used u _

theorem uploads_used_cases (u : Upload) (f : Nat) :
    (u.uploads f).2.used = u.used ∨
    ∃ cb, (u.uploads f).2.used = u.used ++ [(cb, f)] := by
  cases hc : u.cbuf with
  | none =>
    left
    simp [Upload.uploads, hc]
  | some cb =>
    right
    exact ⟨cb.finish, by simp [Upload.uploads, hc]⟩

theorem runOps_inv (ops : List Op) :
    ∀ (s : SysState) (lo : Nat), sortedTags s.upload.used = true →
      (∀ p ∈ s.upload.used, p.2 ≤ lo) →
      framesMonoFrom lo ops = true →
      sortedTags (runOps s ops).upload.used = true := by
  induction ops with
  | nil =>
    intro s lo hs _ _
    exact hs
  | cons op rest ih =>
    intro s lo hs hb hm
    cases op with
    | ubuf b off d =>
      simp only [framesMonoFrom] at hm
      simp only [runOps]
      have hu := upload_buffer_used s.upload s.dev s.alloc b off d
      refine ih _ lo ?_ ?_ hm
      · show sortedTags (s.upload.upload_buffer s.dev s.alloc b off d).2.1.used = true
        rw [hu]
        exact hs
      · show ∀ p ∈ (s.upload.upload_buffer s.dev s.alloc b off d).2.1.used, p.2 ≤ lo
        rw [hu]
        exact hb
    | uimg i d l ly off e =>
      simp only [framesMonoFrom] at hm
      simp only [runOps]
      have hu := upload_image_used s.upload s.dev s.alloc i d l ly off e
      refine ih _ lo ?_ ?_ hm
      · show sortedTags (s.upload.upload_image s.dev s.alloc i d l ly off e).2.1.used = true
        rw [hu]
        exact hs
      · show ∀ p ∈ (s.upload.upload_image s.dev s.alloc i d l ly off e).2.1.used, p.2 ≤ lo
        rw [hu]
        exact hb
    | ups f =>
      simp only [framesMonoFrom, Bool.and_eq_true, decide_eq_true_eq] at hm
      obtain ⟨hlof, hm2⟩ := hm
      simp only [runOps]
      rcases uploads_used_cases s.upload f with hu | ⟨cb, hu⟩
      · refine ih _ f ?_ ?_ hm2
        · show sortedTags (s.upload.uploads f).2.used = true
          rw [hu]
          exact hs
        · show ∀ p ∈ (s.upload.uploads f).2.used, p.2 ≤ f
          rw [hu]
          exact fun p hp => le_trans (hb p hp) hlof
      · refine ih _ f ?_ ?_ hm2
        · show sortedTags (s.upload.uploads f).2.used = true
          rw [hu]
          exact sortedTags_append s.upload.used cb f hs
            (fun p hp => le_trans (hb p hp) hlof)
        · show ∀ p ∈ (s.upload.uploads f).2.used, p.2 ≤ f
          rw [hu]
          intro p hp
          rcases List.mem_append.mp hp with hp2 | hp2
          · exact le_trans (hb p hp2) hlof
          · rw [List.mem_singleton.mp hp2]
    | clr w =>
      simp only [framesMonoFrom] at hm
      simp only [runOps]
      refine ih _ lo ?_ ?_ hm
      · show sortedTags (s.upload.clear w).used = true
        rw [clear_used]
        exact clearLoop_sorted w s.upload.used s.upload.free hs
      · show ∀ p ∈ (s.upload.clear w).used, p.2 ≤ lo
        rw [clear_used]
        exact clearLoop_tags_le w lo s.upload.used s.upload.free hb

/-! ## Claims C6 and C7 -/

/-- Claim C6: on an in-flight queue ordered by non-decreasing frame tags,
`clear(watermark)` resets and moves to the free list exactly the buffers
tagged with a frame strictly below the watermark; it recycles no buffer
tagged `≥ watermark` — the walk stops at the first such entry, which is
re-inserted at the front with its frame tag rewritten to the watermark — and
the queue remains ordered after the call. -/
theorem clear_spec (u : Upload) (w : Nat) (h : sortedTags u.used = true) :
    (u.clear w).free =
      u.free ++
        (u.used.filter (fun p => decide (p.2 < w))).map (fun p => p.1.reset) ∧
    (u.clear w).used =
      (match u.used.dropWhile (fun p => decide (p.2 < w)) with
       | [] => []
       | (cb, _) :: rest => (cb, w) :: rest) ∧
    sortedTags (u.clear w).used = true := by
  have hTF := takeWhile_eq_filter_of_sorted w u.used h
  have he := clearLoop_eq w u.used u.free
  have hclear : u.clear w =
      { u with
        used := (match u.used.dropWhile (fun p => decide (p.2 < w)) with
                 | [] => []
                 | (cb, _) :: rest => (cb, w) :: rest)
        free := u.free ++
          (u.used.takeWhile (fun p => decide (p.2 < w))).map
            (fun p => p.1.reset) } := by
    unfold Upload.clear
    rw [he]
  refine ⟨?_, ?_, ?_⟩
  · rw [hclear, hTF]
  · rw [hclear]
  · rw [clear_used]
    exact clearLoop_sorted w u.used u.free h

/-- Witness for Claim C6: clearing the queue `[1, 2, 4]` with watermark 3
recycles the two buffers tagged 1 and 2 and re-inserts the entry tagged 4 at
the front with its tag rewritten to 3. -/
theorem clear_spec_witness :
    sortedTags exUsedQueue.used = true ∧
    ((exUsedQueue.clear 3).free =
      exUsedQueue.free ++
        (exUsedQueue.used.filter (fun p => decide (p.2 < 3))).map
          (fun p => p.1.reset) ∧
    (exUsedQueue.clear 3).used =
      (match exUsedQueue.used.dropWhile (fun p => decide (p.2 < 3)) with
       | [] => []
       | (cb, _) :: rest => (cb, 3) :: rest) ∧
    sortedTags (exUsedQueue.clear 3).used = true) :=
  ⟨by decide, clear_spec exUsedQueue 3 (by decide)⟩

/-- Claim C7: starting from `new`, under the caller preconditions that
`uploads` is invoked with non-decreasing frame values and `clear` with
non-decreasing watermarks, every sequence of Upload-context operations
(`upload_buffer`, `upload_image`, `uploads`, `clear`) preserves the invariant
that the in-flight queue is ordered by submission frame, non-decreasing. -/
theorem upload_frame_order_invariant (t fam : Nat) (dev : Device)
    (alloc : Allocator) (ops : List Op)
    (hf : framesMonoFrom 0 ops = true)
    (_hw : watermarksMonoFrom 0 ops = true) :
    sortedTags (runOps ⟨Upload.new t fam, dev, alloc⟩ ops).upload.used = true :=
  runOps_inv ops ⟨Upload.new t fam, dev, alloc⟩ 0 rfl
    (by intro p hp; simp [Upload.new] at hp) hf

/-- Witness for Claim C7 on a concrete monotone trace: a buffer upload, a
submission at frame 1, a clear at watermark 1, an image upload and a
submission at frame 2. -/
theorem upload_frame_order_invariant_witness :
    framesMonoFrom 0
        [.ubuf exBuf 0 [1, 2], .ups 1, .clr 1,
         .uimg exImage [3] 0 0 0 0, .ups 2] = true ∧
    watermarksMonoFrom 0
        [.ubuf exBuf 0 [1, 2], .ups 1, .clr 1,
         .uimg exImage [3] 0 0 0 0, .ups 2] = true ∧
    sortedTags
        (runOps ⟨Upload.new 64 7, exDevice, exAlloc⟩
          [.ubuf exBuf 0 [1, 2], .ups 1, .clr 1,
           .uimg exImage [3] 0 0 0 0, .ups 2]).upload.used = true :=
  ⟨by decide, by decide,
   upload_frame_order_invariant 64 7 exDevice exAlloc
     [.ubuf exBuf 0 [1, 2], .ups 1, .clr 1,
      .uimg exImage [3] 0 0 0 0, .ups 2] (by decide) (by decide)⟩
